import Mathlib

/-!
# Verification of `earthquakes.py`

A shallow embedding of the earthquake-analysis pipeline in `src/earthquakes.py`:
field extractors over GeoJSON-style event records, the strongest-earthquake
scan, and the per-year grouping / averaging used by the two chart builders.

Numbers are modelled as rationals (`ℚ`).  Python's `float("nan")` sentinel for
a missing magnitude is modelled as `none : Option ℚ`; a "valid" magnitude is
`some q`.  Python exceptions are modelled with `Except QuakeError`; the code
raises `ValueError` everywhere, but the distinct raise sites correspond to the
distinct error kinds below.  The fetcher (`get_data`), matplotlib rendering and
file output are external collaborators and are not modelled: each chart
builder is modelled down to the ordered `(year, value)` series it hands to the
charting library.
-/

/-- A JSON scalar as it can appear in the `properties.mag` field of a USGS
GeoJSON feature: JSON `null`, or a JSON number (modelled as a rational). -/
inductive JVal where
  | null
  | num (q : ℚ)
deriving DecidableEq

/-- One earthquake feature, holding the fields the program reads.
`mag = none` models an absent `properties.mag` key (or an absent `properties`
object), `some JVal.null` a JSON `null` magnitude, `some (JVal.num q)` a
numeric magnitude.  `time = none` models an absent (or `null`)
`properties.time`, in which case `earthquake.get("properties", {}).get("time")`
yields Python `None`.  `coordinates` models `geometry.coordinates`
(a list of JSON numbers, ordered lon, lat, depth). -/
structure Feature where
  mag : Option JVal
  time : Option Int
  coordinates : List ℚ
deriving DecidableEq

/-- The `metadata.count` field of the response: absent (also covering an
absent `metadata` object), present but not a Python `int` (e.g. a JSON
fraction, string or `null`), or an integer value. -/
inductive MetaCount where
  | absent
  | nonInt
  | intVal (n : Int)
deriving DecidableEq

/-- The parsed GeoJSON FeatureCollection: optional declared count plus the
`features` sequence. -/
structure Collection where
  metaCount : MetaCount
  features : List Feature
deriving DecidableEq

/-- The error taxonomy of the spec.  In the source every raise site throws
`ValueError`; the constructors match the distinct raise sites. -/
inductive QuakeError where
  | missingField
  | emptyResult
  | noValidMagnitude
deriving DecidableEq

/-- `count_earthquakes(data)`: `int(meta_count) if isinstance(meta_count, int)
else len(features)`.  (Under Python semantics a boolean count would pass the
`isinstance` test as `0` or `1`; it is covered by `intVal`.) -/
def count_earthquakes (data : Collection) : Int :=
  match data.metaCount with
  | .intVal n => n
  | _ => (data.features.length : Int)

/-- `get_magnitude(earthquake)`: `float(mag) if mag is not None else
float("nan")`, where `mag = earthquake.get("properties", {}).get("mag", None)`.
An absent key and a JSON `null` both give Python `None`, hence the NaN
sentinel (`none`). -/
def get_magnitude (earthquake : Feature) : Option ℚ :=
  match earthquake.mag with
  | some (.num q) => some q
  | _ => none

/-- `get_location(earthquake)`: reads `geometry.coordinates`; raises
(`MissingFieldError`) unless it is a list of length ≥ 2; otherwise returns
`(float(lat), float(lon))` from `[lon, lat, ...]`. -/
def get_location (earthquake : Feature) : Except QuakeError (ℚ × ℚ) :=
  match earthquake.coordinates with
  | lon :: lat :: _ => .ok (lat, lon)
  | _ => .error .missingField

/-- Hinnant's civil-from-days computation, reduced to the year: the calendar
year (proleptic Gregorian) of the day `z` days after 1970-01-01.  Models the
`.year` of the date that Python's `datetime.date` arithmetic produces.
(The source converts via `date.fromtimestamp`, i.e. in the local timezone;
the model fixes the timezone to UTC.) -/
def civilYearOfDays (z : Int) : Int :=
  let z' := z + 719468
  let era := Int.fdiv z' 146097
  let doe := (z' - era * 146097).toNat
  let yoe := (doe - doe / 1460 + doe / 36524 - doe / 146096) / 365
  let y := (yoe : Int) + era * 400
  let doy := doe - (365 * yoe + yoe / 4 - yoe / 100)
  let mp := (5 * doy + 2) / 153
  if 10 ≤ mp then y + 1 else y

/-- The calendar year of `date.fromtimestamp(ms / 1000)` (UTC model): floor
the millisecond timestamp to days and convert. -/
def yearOfEpochMs (ms : Int) : Int :=
  civilYearOfDays (Int.fdiv ms 86400000)

/-- `get_year(earthquake)`: raises (`MissingFieldError`) when
`properties.time` is absent (or `null`, which `.get` also reports as `None`);
otherwise `date.fromtimestamp(ts_ms / 1000).year`. -/
def get_year (earthquake : Feature) : Except QuakeError Int :=
  match earthquake.time with
  | none => .error .missingField
  | some ts => .ok (yearOfEpochMs ts)

/-- The year of a record as an `Option`, for use in specification statements:
`some y` iff `get_year` succeeds with `y`. -/
def yearOpt (e : Feature) : Option Int :=
  match get_year e with
  | .ok y => some y
  | .error _ => none

/-- The loop of `get_maximum`: running `(max_mag, max_feature)` state,
`none` standing for the initial `(-inf, None)`.  NaN magnitudes
(`get_magnitude = none`, the `m != m` test) are skipped; the update condition
is strict `m > max_mag`, and the first valid magnitude always beats `-inf`. -/
def scanMax : List Feature → Option (ℚ × Feature) → Option (ℚ × Feature)
  | [], acc => acc
  | f :: fs, acc =>
    match get_magnitude f with
    | none => scanMax fs acc
    | some m =>
      match acc with
      | none => scanMax fs (some (m, f))
      | some (mm, mf) =>
        if m > mm then scanMax fs (some (m, f)) else scanMax fs (some (mm, mf))

/-- `get_maximum(data)`: raises `EmptyResultError` on an empty `features`
list; runs the scan; raises `NoValidMagnitudeError` when `max_feature` is
still `None`; otherwise returns `(max_mag, get_location(max_feature))`, the
location call propagating its own error. -/
def get_maximum (data : Collection) :
    Except QuakeError (ℚ × (ℚ × ℚ)) :=
  if data.features = [] then .error .emptyResult
  else
    match scanMax data.features none with
    | none => .error .noValidMagnitude
    | some (mm, mf) =>
      match get_location mf with
      | .error e => .error e
      | .ok loc => .ok (mm, loc)

/-- `by_year[y].append(v)` on a `defaultdict(list)` kept as an association
list in key-insertion order: append `v` to the bucket of `y`, creating the
bucket at the end when `y` is a fresh key. -/
def appendBucket : List (Int × List (Option ℚ)) → Int → Option ℚ →
    List (Int × List (Option ℚ))
  | [], y, v => [(y, [v])]
  | (k, vs) :: rest, y, v =>
    if k = y then (k, vs ++ [v]) :: rest else (k, vs) :: appendBucket rest y v

/-- Association-list lookup (Python `d[y]` / `y in d`). -/
def lookupA {β : Type} : List (Int × β) → Int → Option β
  | [], _ => none
  | (k, v) :: rest, y => if k = y then some v else lookupA rest y

/-- One iteration of the `get_magnitudes_per_year` loop: `try: y =
get_year(eq) except Exception: continue`, then append `get_magnitude(eq)`. -/
def bucketStep (acc : List (Int × List (Option ℚ))) (eq : Feature) :
    List (Int × List (Option ℚ)) :=
  match get_year eq with
  | .error _ => acc
  | .ok y => appendBucket acc y (get_magnitude eq)

/-- `get_magnitudes_per_year(earthquakes)`: the `defaultdict(list)` grouping,
returned as `dict(by_year)` — an association list in key-insertion order. -/
def get_magnitudes_per_year (earthquakes : List Feature) :
    List (Int × List (Option ℚ)) :=
  earthquakes.foldl bucketStep []

/-- `by_year[y] += 1` on a `defaultdict(int)` kept as an association list in
key-insertion order. -/
def incr : List (Int × Nat) → Int → List (Int × Nat)
  | [], y => [(y, 1)]
  | (k, n) :: rest, y =>
    if k = y then (k, n + 1) :: rest else (k, n) :: incr rest y

/-- One iteration of the `plot_number_per_year` counting loop. -/
def countStep (acc : List (Int × Nat)) (eq : Feature) : List (Int × Nat) :=
  match get_year eq with
  | .error _ => acc
  | .ok y => incr acc y

/-- The data series of `plot_number_per_year(earthquakes)`: count records per
year, sort the years ascending, and pair each year with its count — the
`(years, counts)` columns handed to `ax.bar`. -/
def plot_number_per_year (earthquakes : List Feature) : List (Int × Nat) :=
  let by_year := earthquakes.foldl countStep []
  let years := List.insertionSort (· ≤ ·) (by_year.map Prod.fst)
  years.map fun y => (y, (lookupA by_year y).getD 0)

/-- The data series of `plot_average_magnitude_per_year(earthquakes)`: group
magnitudes by year, sort the years ascending, and for each year average the
non-NaN magnitudes of its bucket — `sum(mags) / len(mags) if mags else
float("nan")`, the NaN result modelled as `none`.  This is the
`(years, avgs)` pair handed to `ax.plot`. -/
def plot_average_magnitude_per_year (earthquakes : List Feature) :
    List (Int × Option ℚ) :=
  let mags_by_year := get_magnitudes_per_year earthquakes
  let years := List.insertionSort (· ≤ ·) (mags_by_year.map Prod.fst)
  years.map fun y =>
    let mags := ((lookupA mags_by_year y).getD []).filterMap id
    (y, if mags = [] then none else some (mags.sum / (mags.length : ℚ)))

/-! ## Specification-side helpers -/

/-- The valid (non-NaN) magnitudes of a feature list, in order. -/
def validMags (fs : List Feature) : List ℚ :=
  fs.filterMap get_magnitude

/-- The maximum of a list of rationals (`none` on the empty list). -/
def listMax : List ℚ → Option ℚ
  | [] => none
  | x :: xs =>
    match listMax xs with
    | none => some x
    | some m => some (max x m)

/-- Specification-side recursive form of the maximum scan: the winning
`(magnitude, feature)` pair, ties resolved toward the earlier record. -/
def bestOf : List Feature → Option (ℚ × Feature)
  | [] => none
  | f :: fs =>
    match get_magnitude f with
    | none => bestOf fs
    | some m =>
      match bestOf fs with
      | none => some (m, f)
      | some (m', f') => if m' > m then some (m', f') else some (m, f)

/-- The records of `eqs` whose determinable year is `y`, in input order. -/
def recordsOfYear (eqs : List Feature) (y : Int) : List Feature :=
  eqs.filter fun e => decide (yearOpt e = some y)

/-- The yearly average the spec describes: drop NaN entries from the year's
bucket, then the arithmetic mean, or NaN (`none`) when nothing is left. -/
def avgOfBucket (buckets : List (Int × List (Option ℚ))) (y : Int) :
    Option ℚ :=
  let mags := ((lookupA buckets y).getD []).filterMap id
  if mags = [] then none else some (mags.sum / (mags.length : ℚ))

/-- The magnitudes contributed to year `y`'s bucket, in input order. -/
def bucketVals (eqs : List Feature) (y : Int) : List (Option ℚ) :=
  (recordsOfYear eqs y).map get_magnitude

/-- Per-pair length image, relating the counting dictionary of
`plot_number_per_year` to the bucket dictionary of
`get_magnitudes_per_year`. -/
def mapLen (bs : List (Int × List (Option ℚ))) : List (Int × Nat) :=
  bs.map fun p => (p.1, p.2.length)


/-! ## Concrete example data -/

/-- C1's example collection: magnitudes `[1.0, 5.0, 5.0, 3.0]`; the first
record attaining `5.0` sits at coordinates `[-3.2, 54.1, 10.0]`. -/
def exC1 : Collection :=
  ⟨.absent,
   [⟨some (.num 1), none, [0, 50, 1]⟩,
    ⟨some (.num 5), none, [-3.2, 54.1, 10]⟩,
    ⟨some (.num 5), none, [1, 51, 2]⟩,
    ⟨some (.num 3), none, [2, 52, 3]⟩]⟩

/-- Records with timestamps in years `[2001, 2001, 2003]` (epoch
milliseconds `978307200000`, `988000000000`, `1050000000000`) and magnitudes
`[2.0, 3.0, 4.0]`. -/
def ex4 : List Feature :=
  [⟨some (.num 2), some 978307200000, []⟩,
   ⟨some (.num 3), some 988000000000, []⟩,
   ⟨some (.num 4), some 1050000000000, []⟩]

/-- C6's example record, coordinates `[-3.2, 54.1, 10.0]`. -/
def exLoc : Feature := ⟨none, none, [-3.2, 54.1, 10]⟩

/-- C7's example: declared count `100` disagreeing with the single-feature
sequence. -/
def exCount : Collection := ⟨.intVal 100, [⟨none, none, []⟩]⟩

/-- C9's example record: timestamp `978307200000` ms (year 2001). -/
def exYear : Feature := ⟨none, some 978307200000, []⟩

/-- How a challenger scan result combines with an already-held running
maximum: the challenger wins only by strict `>`. -/
def challenge (b : Option (ℚ × Feature)) (mm : ℚ) (mf : Feature) :
    Option (ℚ × Feature) :=
  match b with
  | none => some (mm, mf)
  | some (m', f') => if m' > mm then some (m', f') else some (mm, mf)

/-! ## Lemmas about the maximum scan -/

theorem get_magnitude_eq_validMags_nil {f : Feature}
    (h : get_magnitude f = none) (fs : List Feature) :
    validMags (f :: fs) = validMags fs := by
  simp [validMags, List.filterMap_cons, h]

theorem validMags_cons_some {f : Feature} {m : ℚ}
    (h : get_magnitude f = some m) (fs : List Feature) :
    validMags (f :: fs) = m :: validMags fs := by
  simp [validMags, List.filterMap_cons, h]

theorem scanMax_cons_skip {f : Feature} (h : get_magnitude f = none)
    (fs : List Feature) (acc : Option (ℚ × Feature)) :
    scanMax (f :: fs) acc = scanMax fs acc := by
  cases acc <;> simp [scanMax, h]

theorem scanMax_cons_first {f : Feature} {m : ℚ}
    (h : get_magnitude f = some m) (fs : List Feature) :
    scanMax (f :: fs) none = scanMax fs (some (m, f)) := by
  simp [scanMax, h]

theorem scanMax_cons_valid {f : Feature} {m : ℚ}
    (h : get_magnitude f = some m) (fs : List Feature) (mm : ℚ) (mf : Feature) :
    scanMax (f :: fs) (some (mm, mf)) =
      if m > mm then scanMax fs (some (m, f)) else scanMax fs (some (mm, mf)) := by
  simp [scanMax, h]

theorem bestOf_cons_skip {f : Feature} (h : get_magnitude f = none)
    (fs : List Feature) : bestOf (f :: fs) = bestOf fs := by
  simp [bestOf, h]

theorem bestOf_cons_valid {f : Feature} {m : ℚ}
    (h : get_magnitude f = some m) (fs : List Feature) :
    bestOf (f :: fs) = challenge (bestOf fs) m f := by
  cases hb : bestOf fs with
  | none => simp [bestOf, h, hb, challenge]
  | some p => obtain ⟨m', f'⟩ := p; simp [bestOf, h, hb, challenge]

theorem scanMax_some (fs : List Feature) : ∀ (mm : ℚ) (mf : Feature),
    scanMax fs (some (mm, mf)) = challenge (bestOf fs) mm mf := by
  induction fs with
  | nil => intro mm mf; rfl
  | cons f fs ih =>
    intro mm mf
    cases hm : get_magnitude f with
    | none => rw [scanMax_cons_skip hm, bestOf_cons_skip hm, ih]
    | some m =>
      rw [scanMax_cons_valid hm, bestOf_cons_valid hm]
      cases hb : bestOf fs with
      | none =>
        by_cases hgt : m > mm <;>
          simp [challenge, ih, hb, hgt]
      | some p =>
        obtain ⟨m', f'⟩ := p
        by_cases hgt : m > mm
        · rw [if_pos hgt, ih, hb]
          by_cases h1 : m' > m
          · have h2 : m' > mm := lt_trans hgt h1
            simp [challenge, h1, h2, hgt]
          · simp [challenge, h1, hgt]
        · rw [if_neg hgt, ih, hb]
          by_cases h1 : m' > m
          · simp [challenge, h1]
          · have h2 : ¬ m' > mm :=
              not_lt.mpr (le_trans (not_lt.mp h1) (not_lt.mp hgt))
            simp [challenge, h1, h2, hgt]

theorem scanMax_none (fs : List Feature) : scanMax fs none = bestOf fs := by
  induction fs with
  | nil => rfl
  | cons f fs ih =>
    cases hm : get_magnitude f with
    | none => rw [scanMax_cons_skip hm, bestOf_cons_skip hm, ih]
    | some m => rw [scanMax_cons_first hm, bestOf_cons_valid hm, scanMax_some]

theorem bestOf_eq_none_iff (fs : List Feature) :
    bestOf fs = none ↔ validMags fs = [] := by
  induction fs with
  | nil => simp [bestOf, validMags]
  | cons f fs ih =>
    cases hm : get_magnitude f with
    | none =>
      rw [bestOf_cons_skip hm, get_magnitude_eq_validMags_nil hm, ih]
    | some m =>
      rw [bestOf_cons_valid hm, validMags_cons_some hm]
      constructor
      · intro h
        exfalso
        cases hb : bestOf fs with
        | none => rw [hb] at h; exact Option.noConfusion h
        | some p =>
          obtain ⟨m', f'⟩ := p
          rw [hb] at h
          simp only [challenge] at h
          by_cases h1 : m' > m
          · rw [if_pos h1] at h; exact Option.noConfusion h
          · rw [if_neg h1] at h; exact Option.noConfusion h
      · intro h; exact List.noConfusion h

theorem bestOf_spec (fs : List Feature) :
    ∀ m f, bestOf fs = some (m, f) →
      listMax (validMags fs) = some m ∧
      fs.find? (fun g => decide (get_magnitude g = some m)) = some f := by
  induction fs with
  | nil => intro m f h; exact Option.noConfusion h
  | cons g fs ih =>
    intro m f h
    cases hm : get_magnitude g with
    | none =>
      rw [bestOf_cons_skip hm] at h
      obtain ⟨h1, h2⟩ := ih m f h
      refine ⟨by rwa [get_magnitude_eq_validMags_nil hm], ?_⟩
      rw [List.find?_cons_of_neg _ (by simp [hm])]
      exact h2
    | some mg =>
      rw [bestOf_cons_valid hm] at h
      cases hb : bestOf fs with
      | none =>
        rw [hb] at h
        simp only [challenge, Option.some.injEq, Prod.mk.injEq] at h
        obtain ⟨rfl, rfl⟩ := h
        have hemp : validMags fs = [] := (bestOf_eq_none_iff fs).mp hb
        refine ⟨?_, ?_⟩
        · rw [validMags_cons_some hm, hemp]; rfl
        · exact List.find?_cons_of_pos _ (by simp [hm])
      | some p =>
        obtain ⟨m', f'⟩ := p
        rw [hb] at h
        obtain ⟨h1', h2'⟩ := ih m' f' hb
        simp only [challenge] at h
        by_cases hgt : m' > mg
        · rw [if_pos hgt] at h
          simp only [Option.some.injEq, Prod.mk.injEq] at h
          obtain ⟨rfl, rfl⟩ := h
          refine ⟨?_, ?_⟩
          · rw [validMags_cons_some hm]
            simp only [listMax, h1']
            rw [max_eq_right (le_of_lt hgt)]
          · rw [List.find?_cons_of_neg]
            · exact h2'
            · have hne : mg ≠ m' := fun hc =>
                absurd hgt (by rw [hc]; exact lt_irrefl m')
              simp [hm, hne]
        · rw [if_neg hgt] at h
          simp only [Option.some.injEq, Prod.mk.injEq] at h
          obtain ⟨rfl, rfl⟩ := h
          refine ⟨?_, ?_⟩
          · rw [validMags_cons_some hm]
            simp only [listMax, h1']
            rw [max_eq_left (not_lt.mp hgt)]
          · exact List.find?_cons_of_pos _ (by simp [hm])

/-! ## Lemmas about the per-year buckets -/

theorem lookupA_appendBucket_self (acc : List (Int × List (Option ℚ)))
    (y : Int) (v : Option ℚ) :
    lookupA (appendBucket acc y v) y = some ((lookupA acc y).getD [] ++ [v]) := by
  induction acc with
  | nil => simp [appendBucket, lookupA]
  | cons p rest ih =>
    obtain ⟨k, vs⟩ := p
    by_cases hk : k = y
    · subst hk; simp [appendBucket, lookupA]
    · simp [appendBucket, lookupA, hk, ih]

theorem lookupA_appendBucket_other (acc : List (Int × List (Option ℚ)))
    (y y' : Int) (v : Option ℚ) (h : y' ≠ y) :
    lookupA (appendBucket acc y v) y' = lookupA acc y' := by
  induction acc with
  | nil => simp [appendBucket, lookupA, Ne.symm h]
  | cons p rest ih =>
    obtain ⟨k, vs⟩ := p
    by_cases hk : k = y
    · subst hk; simp [appendBucket, lookupA, Ne.symm h]
    · by_cases hk' : k = y'
      · subst hk'; simp [appendBucket, lookupA, hk]
      · simp [appendBucket, lookupA, hk, hk', ih]

theorem appendBucket_keys (acc : List (Int × List (Option ℚ)))
    (y : Int) (v : Option ℚ) :
    (appendBucket acc y v).map Prod.fst =
      if y ∈ acc.map Prod.fst then acc.map Prod.fst
      else acc.map Prod.fst ++ [y] := by
  induction acc with
  | nil => simp [appendBucket]
  | cons p rest ih =>
    obtain ⟨k, vs⟩ := p
    by_cases hk : k = y
    · subst hk; simp [appendBucket]
    · simp only [appendBucket, if_neg hk, List.map_cons, ih]
      by_cases hy : y ∈ rest.map Prod.fst
      · simp [hy, List.mem_cons]
      · simp [hy, List.mem_cons, Ne.symm hk]

theorem appendBucket_ne_nil {acc : List (Int × List (Option ℚ))}
    (h : ∀ b ∈ acc, b.2 ≠ []) (y : Int) (v : Option ℚ) :
    ∀ b ∈ appendBucket acc y v, b.2 ≠ [] := by
  induction acc with
  | nil => simp [appendBucket]
  | cons p rest ih =>
    obtain ⟨k, vs⟩ := p
    intro b hb
    by_cases hk : k = y
    · subst hk
      simp only [appendBucket, if_true, eq_self_iff_true, List.mem_cons] at hb
      cases hb with
      | inl hb => rw [hb]; simp
      | inr hb => exact h b (List.mem_cons_of_mem _ hb)
    · simp only [appendBucket, if_neg hk, List.mem_cons] at hb
      cases hb with
      | inl hb => rw [hb]; exact h (k, vs) (List.mem_cons_self _ _)
      | inr hb => exact ih (fun b hb => h b (List.mem_cons_of_mem _ hb)) b hb

theorem lookupA_eq_none_iff {β : Type} (l : List (Int × β)) (y : Int) :
    lookupA l y = none ↔ y ∉ l.map Prod.fst := by
  induction l with
  | nil => simp [lookupA]
  | cons p rest ih =>
    obtain ⟨k, v⟩ := p
    by_cases hk : k = y
    · subst hk; simp [lookupA]
    · simp [lookupA, hk, ih, Ne.symm hk]

theorem lookupA_of_mem {β : Type} {l : List (Int × β)}
    (hnd : (l.map Prod.fst).Nodup) {b : Int × β} (hb : b ∈ l) :
    lookupA l b.1 = some b.2 := by
  induction l with
  | nil => cases hb
  | cons p rest ih =>
    obtain ⟨k, v⟩ := p
    rcases List.mem_cons.mp hb with rfl | hb'
    · simp [lookupA]
    · have hk : k ≠ b.1 := by
        intro hkb
        have : k ∈ rest.map Prod.fst := hkb ▸ List.mem_map_of_mem Prod.fst hb'
        exact (List.nodup_cons.mp hnd).1 this
      simp only [lookupA, if_neg hk]
      exact ih (List.nodup_cons.mp hnd).2 hb'

theorem yearOpt_eq_some_iff (e : Feature) (y : Int) :
    yearOpt e = some y ↔ get_year e = .ok y := by
  unfold yearOpt
  cases get_year e <;> simp

theorem bucketVals_cons_skip {e : Feature} {err : QuakeError}
    (hy : get_year e = .error err) (eqs : List Feature) (y : Int) :
    bucketVals (e :: eqs) y = bucketVals eqs y := by
  simp [bucketVals, recordsOfYear, List.filter_cons, yearOpt, hy]

theorem bucketVals_cons_hit {e : Feature} {y : Int}
    (hy : get_year e = .ok y) (eqs : List Feature) :
    bucketVals (e :: eqs) y = get_magnitude e :: bucketVals eqs y := by
  simp [bucketVals, recordsOfYear, List.filter_cons, yearOpt, hy]

theorem bucketVals_cons_miss {e : Feature} {ye : Int}
    (hy : get_year e = .ok ye) (eqs : List Feature) {y : Int} (hne : ye ≠ y) :
    bucketVals (e :: eqs) y = bucketVals eqs y := by
  simp [bucketVals, recordsOfYear, List.filter_cons, yearOpt, hy, hne]

theorem foldl_bucketStep_lookup (eqs : List Feature) (y : Int) :
    ∀ acc, lookupA (eqs.foldl bucketStep acc) y =
      if bucketVals eqs y = [] then lookupA acc y
      else some ((lookupA acc y).getD [] ++ bucketVals eqs y) := by
  induction eqs with
  | nil => intro acc; simp [bucketVals, recordsOfYear]
  | cons e eqs ih =>
    intro acc
    rw [List.foldl_cons]
    cases hy : get_year e with
    | error err =>
      have hstep : bucketStep acc e = acc := by simp [bucketStep, hy]
      rw [hstep, bucketVals_cons_skip hy, ih]
    | ok ye =>
      have hstep : bucketStep acc e = appendBucket acc ye (get_magnitude e) := by
        simp [bucketStep, hy]
      by_cases hyy : ye = y
      · subst hyy
        rw [hstep, bucketVals_cons_hit hy, ih, lookupA_appendBucket_self]
        by_cases hnil : bucketVals eqs ye = []
        · simp [hnil]
        · simp [hnil]
      · rw [hstep, bucketVals_cons_miss hy eqs hyy, ih,
          lookupA_appendBucket_other _ _ _ _ (Ne.symm hyy)]

theorem get_magnitudes_per_year_lookup (eqs : List Feature) (y : Int) :
    lookupA (get_magnitudes_per_year eqs) y =
      if bucketVals eqs y = [] then none else some (bucketVals eqs y) := by
  rw [show get_magnitudes_per_year eqs = eqs.foldl bucketStep [] from rfl,
    foldl_bucketStep_lookup]
  rfl

theorem mem_keys_get_magnitudes_per_year (eqs : List Feature) (y : Int) :
    y ∈ (get_magnitudes_per_year eqs).map Prod.fst ↔ bucketVals eqs y ≠ [] := by
  rw [← not_iff_not, not_not, ← lookupA_eq_none_iff, get_magnitudes_per_year_lookup]
  by_cases hnil : bucketVals eqs y = [] <;> simp [hnil]

theorem foldl_bucketStep_ne_nil (eqs : List Feature) :
    ∀ acc, (∀ b ∈ acc, b.2 ≠ []) →
      ∀ b ∈ eqs.foldl bucketStep acc, b.2 ≠ [] := by
  induction eqs with
  | nil => intro acc h; exact h
  | cons e eqs ih =>
    intro acc h
    rw [List.foldl_cons]
    cases hy : get_year e with
    | error err =>
      have hstep : bucketStep acc e = acc := by simp [bucketStep, hy]
      rw [hstep]; exact ih acc h
    | ok ye =>
      have hstep : bucketStep acc e = appendBucket acc ye (get_magnitude e) := by
        simp [bucketStep, hy]
      rw [hstep]
      exact ih _ (appendBucket_ne_nil h ye (get_magnitude e))

theorem get_magnitudes_per_year_ne_nil (eqs : List Feature) :
    ∀ b ∈ get_magnitudes_per_year eqs, b.2 ≠ [] :=
  foldl_bucketStep_ne_nil eqs [] (by simp)

theorem appendBucket_keys_nodup {acc : List (Int × List (Option ℚ))}
    (h : (acc.map Prod.fst).Nodup) (y : Int) (v : Option ℚ) :
    ((appendBucket acc y v).map Prod.fst).Nodup := by
  rw [appendBucket_keys]
  by_cases hy : y ∈ acc.map Prod.fst
  · simpa [hy] using h
  · rw [if_neg hy]
    simp [List.nodup_append, h, hy]

theorem foldl_bucketStep_keys_nodup (eqs : List Feature) :
    ∀ acc, ((acc.map Prod.fst : List Int)).Nodup →
      (((eqs.foldl bucketStep acc).map Prod.fst)).Nodup := by
  induction eqs with
  | nil => intro acc h; exact h
  | cons e eqs ih =>
    intro acc h
    rw [List.foldl_cons]
    cases hy : get_year e with
    | error err =>
      have hstep : bucketStep acc e = acc := by simp [bucketStep, hy]
      rw [hstep]; exact ih acc h
    | ok ye =>
      have hstep : bucketStep acc e = appendBucket acc ye (get_magnitude e) := by
        simp [bucketStep, hy]
      rw [hstep]
      exact ih _ (appendBucket_keys_nodup h ye (get_magnitude e))

theorem get_magnitudes_per_year_keys_nodup (eqs : List Feature) :
    ((get_magnitudes_per_year eqs).map Prod.fst).Nodup :=
  foldl_bucketStep_keys_nodup eqs [] (by simp)

theorem incr_mapLen (acc : List (Int × List (Option ℚ))) (y : Int)
    (v : Option ℚ) : incr (mapLen acc) y = mapLen (appendBucket acc y v) := by
  induction acc with
  | nil => simp [incr, mapLen, appendBucket]
  | cons p rest ih =>
    obtain ⟨k, vs⟩ := p
    by_cases hk : k = y
    · subst hk; simp [incr, mapLen, appendBucket]
    · simp only [incr, mapLen, appendBucket, List.map_cons, if_neg hk]
      rw [show incr (List.map (fun p => (p.1, p.2.length)) rest) y
          = incr (mapLen rest) y from rfl, ih]
      rfl

theorem foldl_countStep_mapLen (eqs : List Feature) :
    ∀ acc, eqs.foldl countStep (mapLen acc) = mapLen (eqs.foldl bucketStep acc) := by
  induction eqs with
  | nil => intro acc; rfl
  | cons e eqs ih =>
    intro acc
    rw [List.foldl_cons, List.foldl_cons]
    cases hy : get_year e with
    | error err =>
      have h1 : countStep (mapLen acc) e = mapLen acc := by simp [countStep, hy]
      have h2 : bucketStep acc e = acc := by simp [bucketStep, hy]
      rw [h1, h2, ih]
    | ok ye =>
      have h1 : countStep (mapLen acc) e = mapLen (bucketStep acc e) := by
        simp only [countStep, bucketStep, hy]
        exact incr_mapLen acc ye (get_magnitude e)
      rw [h1, ih]

theorem countDict_eq_mapLen (eqs : List Feature) :
    eqs.foldl countStep [] = mapLen (get_magnitudes_per_year eqs) := by
  have := foldl_countStep_mapLen eqs []
  simpa [mapLen] using this

theorem mapLen_keys (bs : List (Int × List (Option ℚ))) :
    (mapLen bs).map Prod.fst = bs.map Prod.fst := by
  simp [mapLen]

theorem lookupA_mapLen (bs : List (Int × List (Option ℚ))) (y : Int) :
    lookupA (mapLen bs) y = (lookupA bs y).map List.length := by
  induction bs with
  | nil => simp [mapLen, lookupA]
  | cons p rest ih =>
    obtain ⟨k, vs⟩ := p
    by_cases hk : k = y
    · subst hk; simp [mapLen, lookupA]
    · simp only [mapLen, lookupA, List.map_cons, if_neg hk]
      simpa [mapLen] using ih

/-! ## Claim theorems -/

/-- C3: for every record, `get_magnitude` never raises: it returns the
magnitude field coerced to a number when present and numeric, and the
not-a-number sentinel (`none`) when the field is absent or null.  Totality of
the Lean function models "never raises"; the disjunction is exhaustive over
every record. -/
theorem get_magnitude_never_fails (e : Feature) :
    ((e.mag = none ∨ e.mag = some JVal.null) ∧ get_magnitude e = none) ∨
    (∃ q, e.mag = some (JVal.num q) ∧ get_magnitude e = some q) := by
  cases hm : e.mag with
  | none => exact Or.inl ⟨Or.inl rfl, by simp [get_magnitude, hm]⟩
  | some v =>
    cases v with
    | null => exact Or.inl ⟨Or.inr rfl, by simp [get_magnitude, hm]⟩
    | num q => exact Or.inr ⟨q, rfl, by simp [get_magnitude, hm]⟩

/-- C6: `get_location` returns `(lat, lon)` — the second then the first
coordinate, depth dropped — whenever at least two coordinates are present,
and fails with `MissingFieldError` on fewer than two. -/
theorem get_location_spec (e : Feature) :
    (∀ lon lat rest, e.coordinates = lon :: lat :: rest →
      get_location e = .ok (lat, lon)) ∧
    (e.coordinates.length < 2 → get_location e = .error .missingField) := by
  constructor
  · intro lon lat rest h
    simp [get_location, h]
  · intro h
    cases hc : e.coordinates with
    | nil => simp [get_location, hc]
    | cons a t =>
      cases t with
      | nil => simp [get_location, hc]
      | cons b t' => rw [hc] at h; simp at h; omega

/-- C6 witness: on coordinates `[-3.2, 54.1, 10.0]` the location is
`(54.1, -3.2)`. -/
theorem get_location_spec_witness :
    get_location exLoc = .ok (54.1, -3.2) :=
  (get_location_spec exLoc).1 (-3.2) 54.1 [10] rfl

/-- C7: `count_earthquakes` returns the declared metadata count whenever it
is present and integral — with no reference to the feature-sequence length —
and the sequence length otherwise. -/
theorem count_earthquakes_spec (data : Collection) :
    (∀ n, data.metaCount = .intVal n → count_earthquakes data = n) ∧
    ((∀ n, data.metaCount ≠ .intVal n) →
      count_earthquakes data = (data.features.length : Int)) := by
  constructor
  · intro n h; simp [count_earthquakes, h]
  · intro h
    cases hm : data.metaCount with
    | absent => simp [count_earthquakes, hm]
    | nonInt => simp [count_earthquakes, hm]
    | intVal n => exact absurd hm (h n)

/-- C7 witness: the declared count `100` wins although the sequence holds a
single feature. -/
theorem count_earthquakes_spec_witness :
    count_earthquakes exCount = 100 ∧ exCount.features.length = 1 :=
  ⟨(count_earthquakes_spec exCount).1 100 rfl, rfl⟩

/-- C9: `get_year` fails with `MissingFieldError` when the timestamp field is
absent, and otherwise returns the calendar year of the
millisecond-since-epoch timestamp. -/
theorem get_year_spec (e : Feature) :
    (e.time = none → get_year e = .error .missingField) ∧
    (∀ ts, e.time = some ts → get_year e = .ok (yearOfEpochMs ts)) := by
  constructor
  · intro h; simp [get_year, h]
  · intro ts h; simp [get_year, h]

/-- C9 witness: timestamp `978307200000` ms (2001-01-01T00:00:00Z) gives the
year 2001. -/
theorem get_year_spec_witness : get_year exYear = .ok 2001 :=
  ((get_year_spec exYear).2 978307200000 rfl).trans
    (congrArg Except.ok (by decide))

theorem get_location_error (f : Feature) (err : QuakeError)
    (h : get_location f = .error err) : err = .missingField := by
  unfold get_location at h
  cases hc : f.coordinates with
  | nil => rw [hc] at h; simp at h; exact h.symm
  | cons a t =>
    cases t with
    | nil => rw [hc] at h; simp at h; exact h.symm
    | cons b t' => rw [hc] at h; simp at h

/-- C2: `get_maximum` fails with `EmptyResultError` exactly on an empty
feature sequence, fails with `NoValidMagnitudeError` exactly on a non-empty
sequence all of whose magnitudes are the NaN sentinel, and raises neither of
these two errors in any other case (the two iffs leave only `.ok` results or
a propagated `MissingFieldError` elsewhere). -/
theorem get_maximum_error_cases (data : Collection) :
    (get_maximum data = .error .emptyResult ↔ data.features = []) ∧
    (get_maximum data = .error .noValidMagnitude ↔
      (data.features ≠ [] ∧ validMags data.features = [])) := by
  by_cases hne : data.features = []
  · constructor
    · simp [get_maximum, hne]
    · simp [get_maximum, hne]
  · unfold get_maximum
    rw [if_neg hne, scanMax_none]
    cases hb : bestOf data.features with
    | none =>
      have hv : validMags data.features = [] := (bestOf_eq_none_iff _).mp hb
      simp [hne, hv]
    | some p =>
      obtain ⟨m, f⟩ := p
      have hv : validMags data.features ≠ [] := by
        intro hc
        rw [← bestOf_eq_none_iff, hb] at hc
        exact Option.noConfusion hc
      cases hl : get_location f with
      | error err =>
        have herr : err = .missingField := get_location_error f err hl
        subst herr
        simp [hne, hv, hl]
      | ok loc => simp [hne, hv, hl]

/-- C1: whenever the feature sequence holds at least one valid
(non-NaN) magnitude, `get_maximum` locates the largest valid magnitude `m`
and the earliest-encountered record attaining it (strict greater-than, so a
later tie never replaces the earlier record); the result is `(m, location)`
of that record, the location lookup propagating its own error. -/
theorem get_maximum_earliest_max (data : Collection)
    (h : validMags data.features ≠ []) :
    ∃ m f, listMax (validMags data.features) = some m ∧
      data.features.find? (fun g => decide (get_magnitude g = some m)) = some f ∧
      (∀ loc, get_location f = .ok loc → get_maximum data = .ok (m, loc)) ∧
      (∀ err, get_location f = .error err → get_maximum data = .error err) := by
  have hne : data.features ≠ [] := by
    intro hf
    apply h
    rw [show validMags data.features = List.filterMap get_magnitude data.features
      from rfl, hf]
    rfl
  cases hb : bestOf data.features with
  | none => exact absurd ((bestOf_eq_none_iff _).mp hb) h
  | some p =>
    obtain ⟨m, f⟩ := p
    obtain ⟨h1, h2⟩ := bestOf_spec _ m f hb
    refine ⟨m, f, h1, h2, ?_, ?_⟩
    · intro loc hloc
      unfold get_maximum
      rw [if_neg hne, scanMax_none]
      simp [hb, hloc]
    · intro err herr
      unfold get_maximum
      rw [if_neg hne, scanMax_none]
      simp [hb, herr]

/-- C1 witness: over magnitudes `[1.0, 5.0, 5.0, 3.0]` the maximum is
attained and reported at the first record with magnitude `5.0`. -/
theorem get_maximum_earliest_max_witness :
    validMags exC1.features ≠ [] ∧
    ∃ m f, listMax (validMags exC1.features) = some m ∧
      exC1.features.find? (fun g => decide (get_magnitude g = some m)) = some f ∧
      (∀ loc, get_location f = .ok loc → get_maximum exC1 = .ok (m, loc)) ∧
      (∀ err, get_location f = .error err → get_maximum exC1 = .error err) :=
  ⟨by decide, get_maximum_earliest_max exC1 (by decide)⟩

/-- C4: the grouping skips exactly the records without a determinable year
(with no error), and each year's bucket is the in-order list of extracted
magnitudes of that year's records: the bucket of `y` is
`bucketVals eqs y = (records of year y).map get_magnitude`, absent iff no
record has year `y`; on timestamps in years `[2001, 2001, 2003]` with
magnitudes `[2.0, 3.0, 4.0]` the grouping is exactly
`{2001: [2.0, 3.0], 2003: [4.0]}`. -/
theorem get_magnitudes_per_year_spec (eqs : List Feature) (y : Int) :
    lookupA (get_magnitudes_per_year eqs) y =
      (if bucketVals eqs y = [] then none else some (bucketVals eqs y)) ∧
    get_magnitudes_per_year ex4 =
      [(2001, [some 2, some 3]), (2003, [some 4])] :=
  ⟨get_magnitudes_per_year_lookup eqs y, rfl⟩

theorem map_fst_pairing {β : Type} (l : List Int) (g : Int → β) :
    (l.map fun y => (y, g y)).map Prod.fst = l := by
  induction l with
  | nil => rfl
  | cons a t ih => simp [ih]

theorem mem_pairing {β : Type} {l : List Int} {g : Int → β} {p : Int × β}
    (hp : p ∈ l.map fun y => (y, g y)) : p.1 ∈ l ∧ p.2 = g p.1 := by
  obtain ⟨y, hy, rfl⟩ := List.mem_map.mp hp
  exact ⟨hy, rfl⟩

theorem sortedKeys_lt (l : List Int) (hnd : l.Nodup) :
    (List.insertionSort (· ≤ ·) l).Sorted (· < ·) :=
  (List.sorted_insertionSort _ l).lt_of_le
    ((List.perm_insertionSort _ l).nodup_iff.mpr hnd)

theorem plot_number_keys_eq (eqs : List Feature) :
    (plot_number_per_year eqs).map Prod.fst =
      List.insertionSort (· ≤ ·) ((get_magnitudes_per_year eqs).map Prod.fst) := by
  simp only [plot_number_per_year, countDict_eq_mapLen]
  rw [map_fst_pairing, mapLen_keys]

theorem plot_number_values (eqs : List Feature) {p : Int × Nat}
    (hp : p ∈ plot_number_per_year eqs) :
    p.1 ∈ (get_magnitudes_per_year eqs).map Prod.fst ∧
    p.2 = ((lookupA (get_magnitudes_per_year eqs) p.1).getD []).length := by
  simp only [plot_number_per_year, countDict_eq_mapLen] at hp
  obtain ⟨h1, h2⟩ := mem_pairing hp
  constructor
  · rw [← mapLen_keys (get_magnitudes_per_year eqs)]
    exact (List.perm_insertionSort _ _).mem_iff.mp h1
  · rw [h2, lookupA_mapLen]
    cases hl : lookupA (get_magnitudes_per_year eqs) p.1 <;> simp [hl]

/-- C8: the count series lists, in strictly ascending year order, exactly the
years owning at least one record with a determinable year (zero-count years
are absent), each paired with the number of records of that year. -/
theorem plot_number_per_year_spec (eqs : List Feature) :
    ((plot_number_per_year eqs).map Prod.fst).Sorted (· < ·) ∧
    (∀ y : Int, y ∈ (plot_number_per_year eqs).map Prod.fst ↔
      recordsOfYear eqs y ≠ []) ∧
    (∀ p ∈ plot_number_per_year eqs,
      p.2 = (recordsOfYear eqs p.1).length) := by
  refine ⟨?_, ?_, ?_⟩
  · rw [plot_number_keys_eq]
    exact sortedKeys_lt _ (get_magnitudes_per_year_keys_nodup eqs)
  · intro y
    rw [plot_number_keys_eq, (List.perm_insertionSort _ _).mem_iff,
      mem_keys_get_magnitudes_per_year]
    unfold bucketVals
    simp [List.map_eq_nil_iff]
  · intro p hp
    obtain ⟨h1, h2⟩ := plot_number_values eqs hp
    rw [mem_keys_get_magnitudes_per_year] at h1
    rw [h2, get_magnitudes_per_year_lookup, if_neg h1]
    simp [bucketVals]

/-- C8 witness: on the example records, year 2001 appears with count 2. -/
theorem plot_number_per_year_spec_witness :
    (2001, 2) ∈ plot_number_per_year ex4 ∧
    ((2001, 2) : Int × Nat).2 = (recordsOfYear ex4 2001).length :=
  ⟨by decide, (plot_number_per_year_spec ex4).2.2 (2001, 2) (by decide)⟩

/-- C5: the average series lists the grouping's years in strictly ascending
order, each paired with the arithmetic mean of the year's non-NaN magnitudes
(`avgOfBucket`, which is the NaN sentinel `none` when nothing remains after
filtering); on the `{2001: [2.0, 3.0], 2003: [4.0]}` grouping it yields
`{2001: 2.5, 2003: 4.0}`. -/
theorem plot_average_magnitude_per_year_spec (eqs : List Feature) :
    ((plot_average_magnitude_per_year eqs).map Prod.fst).Sorted (· < ·) ∧
    ((plot_average_magnitude_per_year eqs).map Prod.fst).Perm
      ((get_magnitudes_per_year eqs).map Prod.fst) ∧
    (∀ p ∈ plot_average_magnitude_per_year eqs,
      p.2 = avgOfBucket (get_magnitudes_per_year eqs) p.1) ∧
    plot_average_magnitude_per_year ex4 =
      [(2001, some (5/2)), (2003, some 4)] := by
  have hkeys : (plot_average_magnitude_per_year eqs).map Prod.fst
      = List.insertionSort (· ≤ ·)
          ((get_magnitudes_per_year eqs).map Prod.fst) := by
    simp only [plot_average_magnitude_per_year]
    exact map_fst_pairing _ _
  refine ⟨?_, ?_, ?_, ?_⟩
  · rw [hkeys]
    exact sortedKeys_lt _ (get_magnitudes_per_year_keys_nodup eqs)
  · rw [hkeys]
    exact List.perm_insertionSort _ _
  · intro p hp
    simp only [plot_average_magnitude_per_year] at hp
    exact (mem_pairing hp).2
  · have hg : get_magnitudes_per_year ex4 =
        [(2001, [some 2, some 3]), (2003, [some 4])] := rfl
    unfold plot_average_magnitude_per_year
    rw [hg]
    norm_num [List.insertionSort, List.orderedInsert, lookupA,
      List.filterMap_cons, List.filterMap_nil, id, List.sum_cons, List.sum_nil]
    constructor
    · intro hc; exact absurd hc (by simp)
    · intro hc; exact absurd hc (by simp)

/-- C5 witness: the pair `(2001, 2.5)` is in the series and is the mean of
year 2001's bucket. -/
theorem plot_average_magnitude_per_year_spec_witness :
    (2001, some ((5:ℚ)/2)) ∈ plot_average_magnitude_per_year ex4 ∧
    ((2001, some ((5:ℚ)/2)) : Int × Option ℚ).2 =
      avgOfBucket (get_magnitudes_per_year ex4) 2001 := by
  have h := plot_average_magnitude_per_year_spec ex4
  have hmem : (2001, some ((5:ℚ)/2)) ∈ plot_average_magnitude_per_year ex4 := by
    rw [h.2.2.2]
    exact List.mem_cons_self _ _
  exact ⟨hmem, h.2.2.1 _ hmem⟩

/-- C10: when every record's magnitude field is absent or numeric, the count
series and the magnitude grouping cover the same set of years, every
magnitude bucket is non-empty, and each year's count equals the length of
that year's magnitude bucket. -/
theorem plot_number_refines_buckets (eqs : List Feature)
    (h : ∀ e ∈ eqs, e.mag = none ∨ ∃ q, e.mag = some (JVal.num q)) :
    (∀ y : Int, y ∈ (plot_number_per_year eqs).map Prod.fst ↔
      y ∈ (get_magnitudes_per_year eqs).map Prod.fst) ∧
    (∀ b ∈ get_magnitudes_per_year eqs, b.2 ≠ []) ∧
    (∀ p ∈ plot_number_per_year eqs, ∀ b ∈ get_magnitudes_per_year eqs,
      p.1 = b.1 → p.2 = b.2.length) := by
  refine ⟨?_, get_magnitudes_per_year_ne_nil eqs, ?_⟩
  · intro y
    rw [plot_number_keys_eq, (List.perm_insertionSort _ _).mem_iff]
  · intro p hp b hb hpb
    obtain ⟨h1, h2⟩ := plot_number_values eqs hp
    rw [hpb, lookupA_of_mem (get_magnitudes_per_year_keys_nodup eqs) hb] at h2
    simpa using h2

/-- C10 witness: on the example records (all magnitudes numeric) the claim's
three parts hold. -/
theorem plot_number_refines_buckets_witness :
    (∀ e ∈ ex4, e.mag = none ∨ ∃ q, e.mag = some (JVal.num q)) ∧
    ((∀ y : Int, y ∈ (plot_number_per_year ex4).map Prod.fst ↔
      y ∈ (get_magnitudes_per_year ex4).map Prod.fst) ∧
    (∀ b ∈ get_magnitudes_per_year ex4, b.2 ≠ []) ∧
    (∀ p ∈ plot_number_per_year ex4, ∀ b ∈ get_magnitudes_per_year ex4,
      p.1 = b.1 → p.2 = b.2.length)) :=
  ⟨by intro e he; fin_cases he <;> exact Or.inr ⟨_, rfl⟩,
   plot_number_refines_buckets ex4
     (by intro e he; fin_cases he <;> exact Or.inr ⟨_, rfl⟩)⟩

example : get_maximum exC1 = .ok (5, (54.1, -3.2)) := rfl

example : get_maximum ⟨.absent, []⟩ = .error .emptyResult := rfl

example :
    get_maximum ⟨.absent, [⟨none, none, [1, 2]⟩, ⟨some .null, none, [3, 4]⟩]⟩ =
      .error .noValidMagnitude := rfl
